import Mathlib

/-!
# Dog door detector: the polling-and-decision loop

A shallow embedding of `main.go` (door-state evaluation, torch eligibility, the
three tick procedures and the loop body that sequences them) and of the retry
loop of `telegram.go`, followed by the properties proved about them.

Modelling conventions.

* `MagnetometerData` is `[3]float64` in the source.  Field strengths are
  modelled as exact rationals: every finite `float64` is a rational, and the
  readings come from a JSON decoder, which only yields finite values.  NaN and
  the infinities are outside the model.  The one rounded operation of
  `DoorOpen`, the subtraction, does not change its answer
  (`doorOpenRounded_eq_DoorOpen`).
* `lightCount` is a Go `int`, modelled as `Int`; it stays within `-1 .. 6`
  (`LightInv_stateAfter`), so it never comes near the machine bounds.
* `openCount` is a Go `uint`, modelled as `Nat`.  It advances by one per tick,
  and the machine with a `uint` of `w` bits agrees with the model on every
  tick sequence shorter than `2 ^ w` (`machine_width_agrees`): at one tick per
  3.5 seconds and `w ≥ 32`, more than 470 years of polling.
* The goroutines started by the tick procedures are modelled as the list of
  effects requested by the tick, in program order.  Whether and when the
  requested effect completes is outside the model.
* `time.Now().In(l).Hour()` is an input: the local hour is a parameter of
  `UseTorch`, and each tick carries the answer `UseTorch` gives at that tick.
-/

namespace DogDoor

/-! ## Configuration constants (`main.go`, lines 29-58) -/

/-- The axis (0-2) used to decide whether the door is open. -/
def MagnetometerAxis : Fin 3 := 1

/-- The expected value on the monitored axis when the door is closed. -/
def DoorClosedFieldStrength : ℚ := -270

/-- The range around `DoorClosedFieldStrength` in which the door counts as closed. -/
def DoorClosedFieldRange : ℚ := 70

/-- Whether the torch feature is used when the door is opened. -/
def TorchFeatEnabled : Bool := true

/-- The maximum hour at which the torch is used. -/
def TorchHourMax : Int := 6

/-- The minimum hour at which the torch is used. -/
def TorchHourMin : Int := 18

/-! ## Door state evaluator -/

/-- The sensor data for each axis, `[x, y, z]`. -/
abbrev MagnetometerData := Fin 3 → ℚ

/-- The body of `DoorOpen` with the calibration constants as parameters. -/
def doorOpenWith (axis : Fin 3) (closedValue radius : ℚ) (data : MagnetometerData) : Bool :=
  let v := data axis
  !(decide (|v - closedValue| < radius))

/-- `DoorOpen` of `main.go`:
`!(math.Abs(v-float64(DoorClosedFieldStrength)) < DoorClosedFieldRange)`. -/
def DoorOpen (data : MagnetometerData) : Bool :=
  doorOpenWith MagnetometerAxis DoorClosedFieldStrength DoorClosedFieldRange data

/-- The finite values of the binary64 format: `m * 2 ^ e` with a significand of
at most 53 bits and an exponent in the format's range. -/
def IsFloat64 (q : ℚ) : Prop :=
  ∃ m e : ℤ, |m| < 2 ^ 53 ∧ -1074 ≤ e ∧ e ≤ 971 ∧ q = (m : ℚ) * (2 : ℚ) ^ e

/-- `DoorOpen` evaluated in binary64 arithmetic: the subtraction is rounded by
`rnd`; `math.Abs` and the comparison with the constant 70 are exact. -/
def doorOpenRounded (rnd : ℚ → ℚ) (data : MagnetometerData) : Bool :=
  let v := data MagnetometerAxis
  !(decide (|rnd (v - DoorClosedFieldStrength)| < DoorClosedFieldRange))

/-! ## Torch eligibility -/

/-- The body of `UseTorch` with the three configuration constants and the local
hour `h` as parameters. -/
def useTorchWith (enabled : Bool) (hourMin hourMax h : Int) : Bool :=
  if !enabled then false
  else if hourMax > hourMin then decide (h < hourMax) && decide (h ≥ hourMin)
  else decide (h < hourMax) || decide (h ≥ hourMin)

/-- `UseTorch` of `main.go` at local hour `h`. -/
def UseTorch (h : Int) : Bool :=
  useTorchWith TorchFeatEnabled TorchHourMin TorchHourMax h

/-! ## Tick controller

The process-wide variables `openCount`, `lightCount` and `hasReceivedData`
form the state.  Log output is not modelled. -/

/-- The two texts sent to the chat: `DoorUsedMessage` and `DoorBlockedMessage`. -/
inductive Message
  | doorUsed
  | doorBlocked
  deriving DecidableEq, Repr

/-- A side effect requested by a tick, each one a `go func()` of the source:
`TgSendMessage(TgBotToken, TgChatID, m, false)` or `SetTorch(state)`. -/
inductive Effect
  | sendMessage (m : Message)
  | setTorch (state : Bool)
  deriving DecidableEq, Repr

/-- The mutable globals of `main.go`. -/
structure State where
  openCount : Nat
  lightCount : Int
  hasReceivedData : Bool
  deriving DecidableEq, Repr

/-- The initial values: `openCount = 0`, `lightCount = -1`, `hasReceivedData = false`. -/
def initState : State := { openCount := 0, lightCount := -1, hasReceivedData := false }

/-- `DoorTick`: run each time the sensor is polled. -/
def DoorTick (s : State) : State × List Effect :=
  let s1 : State := if !s.hasReceivedData then { s with hasReceivedData := true } else s
  let s2 : State := if s1.lightCount ≥ 0 then { s1 with lightCount := s1.lightCount + 1 } else s1
  if s2.lightCount ≥ 7 then
    ({ s2 with lightCount := -1 }, [Effect.setTorch false])
  else
    (s2, [])

/-- `ClosedDoorTick`: run each time the sensor is polled and the door is shut. -/
def ClosedDoorTick (s : State) : State × List Effect :=
  let s1 : State := { s with openCount := 0 }
  if s1.lightCount ≥ 4 then
    ({ s1 with lightCount := -1 }, [Effect.setTorch false])
  else
    (s1, [])

/-- `OpenDoorTick`: run each time the sensor is polled and the door is open.
`useTorch` is the value of `UseTorch(location)` at this tick. -/
def OpenDoorTick (s : State) (useTorch : Bool) : State × List Effect :=
  let s1 : State := { s with openCount := s.openCount + 1 }
  let e1 : List Effect := if s1.openCount = 1 then [Effect.sendMessage Message.doorUsed] else []
  let e2 : List Effect := if s1.openCount = 14 then [Effect.sendMessage Message.doorBlocked] else []
  if useTorch && decide (s1.openCount = 1) then
    ({ s1 with lightCount := 0 }, e1 ++ e2 ++ [Effect.setTorch true])
  else
    (s1, e1 ++ e2)

/-- The input of one tick: the door state computed by `DoorOpen` and the answer
of `UseTorch` at that moment. -/
structure TickInput where
  doorOpen : Bool
  useTorch : Bool
  deriving DecidableEq, Repr

/-- One iteration of the loop of `main` once the door state is known:
`DoorTick`, then `OpenDoorTick` or `ClosedDoorTick`. -/
def tick (s : State) (t : TickInput) : State × List Effect :=
  let r1 := DoorTick s
  let r2 := if t.doorOpen then OpenDoorTick r1.1 t.useTorch else ClosedDoorTick r1.1
  (r2.1, r1.2 ++ r2.2)

/-- The loop body of `main` on a decoded block: `open := DoorOpen(data)`, then the tick. -/
def loopBody (s : State) (data : MagnetometerData) (useTorch : Bool) : State × List Effect :=
  tick s { doorOpen := DoorOpen data, useTorch := useTorch }

/-- The state after processing a sequence of ticks. -/
def stateAfter (s : State) (ticks : List TickInput) : State :=
  ticks.foldl (fun st t => (tick st t).1) s

/-- The effects requested by each tick of a sequence, one list per tick. -/
def effectTrace (s : State) : List TickInput → List (List Effect)
  | [] => []
  | t :: ts => (tick s t).2 :: effectTrace (tick s t).1 ts

/-- The value of `lightCount` after the aging step of `DoorTick`
(`if lightCount >= 0 { lightCount++ }`), before the comparison with 7. -/
def agedLightCount (s : State) : Int :=
  if s.lightCount ≥ 0 then s.lightCount + 1 else s.lightCount

/-- The invariant of the light counter carried by every tick: it lies in
`-1 .. 6`, and it is at most 3 whenever no open-run is in progress. -/
def LightInv (s : State) : Prop :=
  -1 ≤ s.lightCount ∧ s.lightCount ≤ 6 ∧ (s.openCount = 0 → s.lightCount ≤ 3)

instance (s : State) : Decidable (LightInv s) := by
  unfold LightInv
  infer_instance

/-! ## The open counter at machine width

`openCount` is a `uint`, of 32 or 64 bits depending on the platform.  The
definitions above count in `Nat`; the ones below wrap at `2 ^ w`, and
`machine_width_agrees` shows that the two agree on every tick sequence shorter
than `2 ^ w`. -/

/-- `OpenDoorTick` with `openCount++` evaluated on a `uint` of `w` bits. -/
def OpenDoorTickBits (w : Nat) (s : State) (useTorch : Bool) : State × List Effect :=
  let s1 : State := { s with openCount := (s.openCount + 1) % 2 ^ w }
  let e1 : List Effect := if s1.openCount = 1 then [Effect.sendMessage Message.doorUsed] else []
  let e2 : List Effect := if s1.openCount = 14 then [Effect.sendMessage Message.doorBlocked] else []
  if useTorch && decide (s1.openCount = 1) then
    ({ s1 with lightCount := 0 }, e1 ++ e2 ++ [Effect.setTorch true])
  else
    (s1, e1 ++ e2)

/-- One iteration of the loop of `main` with a `uint` of `w` bits. -/
def tickBits (w : Nat) (s : State) (t : TickInput) : State × List Effect :=
  let r1 := DoorTick s
  let r2 := if t.doorOpen then OpenDoorTickBits w r1.1 t.useTorch else ClosedDoorTick r1.1
  (r2.1, r1.2 ++ r2.2)

/-- The state after a sequence of ticks, with a `uint` of `w` bits. -/
def stateAfterBits (w : Nat) (s : State) (ticks : List TickInput) : State :=
  ticks.foldl (fun st t => (tickBits w st t).1) s

/-- The effects requested by each tick of a sequence, with a `uint` of `w` bits. -/
def effectTraceBits (w : Nat) (s : State) : List TickInput → List (List Effect)
  | [] => []
  | t :: ts => (tickBits w s t).2 :: effectTraceBits w (tickBits w s t).1 ts

/-! ## Vocabulary of the specification -/

/-- An open tick with torch eligibility `u`. -/
def openTick (u : Bool) : TickInput := { doorOpen := true, useTorch := u }

/-- A closed tick with torch eligibility `u`. -/
def closedTick (u : Bool) : TickInput := { doorOpen := false, useTorch := u }

/-- Length of the open-run in progress at the end of a tick sequence: the number
of consecutive open ticks at its end. -/
def openRun (ticks : List TickInput) : Nat :=
  (ticks.reverse.takeWhile (fun t => t.doorOpen)).length

/-- Number of occurrences of an effect among the effects of one tick. -/
def requests (e : Effect) (es : List Effect) : Nat := es.count e

/-- Number of ticks processed since the most recent tick that requested the
light on (`0` when the last tick did), or `none` when no tick did. -/
def ticksSinceLightOn (tr : List (List Effect)) : Option Nat :=
  tr.reverse.findIdx? (fun es => decide (Effect.setTorch true ∈ es))

/-- The positions, counted from `k`, of the ticks that request effect `e`. -/
def positionsFrom (e : Effect) (k : Nat) : List (List Effect) → List Nat
  | [] => []
  | es :: tr =>
    if e ∈ es then k :: positionsFrom e (k + 1) tr else positionsFrom e (k + 1) tr

/-- The positions (counted from 1) of the ticks that request effect `e`. -/
def positionsOf (e : Effect) (tr : List (List Effect)) : List Nat :=
  positionsFrom e 1 tr

/-- The message of a notification request, if the effect is one. -/
def Effect.message? : Effect → Option Message
  | Effect.sendMessage m => some m
  | Effect.setTorch _ => none

/-- The notification requests of a trace, each with the position of its tick,
positions counted from `k`. -/
def notificationsFrom (k : Nat) : List (List Effect) → List (Nat × Message)
  | [] => []
  | es :: tr =>
    (es.filterMap Effect.message?).map (fun m => (k, m)) ++ notificationsFrom (k + 1) tr

/-- The notification requests of a trace, each with the position (counted from 1)
of its tick. -/
def notifications (tr : List (List Effect)) : List (Nat × Message) :=
  notificationsFrom 1 tr

/-- The state after each tick of a sequence, one entry per tick. -/
def stateTrace (s : State) : List TickInput → List State
  | [] => []
  | t :: ts => (tick s t).1 :: stateTrace (tick s t).1 ts

/-- The scenario of the specification: closed, closed, open, open, closed, with
torch eligibility true on every tick. -/
def scenarioTicks : List TickInput :=
  [closedTick true, closedTick true, openTick true, openTick true, closedTick true]

/-- The door opening on every other tick, nine ticks, torch eligibility true
throughout. -/
def alternatingTicks : List TickInput :=
  [openTick true, closedTick true, openTick true, closedTick true, openTick true,
   closedTick true, openTick true, closedTick true, openTick true]

/-- The door opening on every other tick, for `n` ticks, torch eligibility true
throughout: open, closed, open, closed, ... -/
def alternatingDoor : Nat → List TickInput
  | 0 => []
  | n + 1 => alternatingDoor n ++ [if n % 2 = 0 then openTick true else closedTick true]

/-! ## Notifier retry loop (`telegram.go`) -/

/-- What one `http.Get` yields: a transport error, or a response with a status code. -/
inductive Outcome
  | transportError
  | response (statusCode : Int)
  deriving DecidableEq, Repr

/-- The three ways `TgSendMessage` returns: `nil`, the "max tries reached" error,
and the "HTTP error response code" error. -/
inductive SendResult
  | ok
  | maxTriesReached
  | httpErrorResponse (statusCode : Int)
  deriving DecidableEq, Repr

/-- A completed call: what was returned, how many `http.Get` calls were made, and
the delays slept between them (in seconds). -/
structure SendRun where
  result : SendResult
  attempts : Nat
  sleeps : List Nat
  deriving DecidableEq, Repr

/-- The `for` loop of `TgSendMessage`, entered with `tries` attempts already made
and the current `backoff` (seconds); `http i` is the outcome of attempt `i + 1`. -/
def sendLoop (http : Nat → Outcome) (tries backoff : Nat) : SendRun :=
  let tries1 := tries + 1
  match http tries with
  | Outcome.transportError =>
    if tries1 ≥ 5 then
      { result := SendResult.maxTriesReached, attempts := tries1, sleeps := [] }
    else
      let backoff1 := backoff * 2
      let r := sendLoop http tries1 backoff1
      { r with sleeps := backoff1 :: r.sleeps }
  | Outcome.response code =>
    if code < 200 ∨ code ≥ 300 then
      { result := SendResult.httpErrorResponse code, attempts := tries1, sleeps := [] }
    else
      { result := SendResult.ok, attempts := tries1, sleeps := [] }
termination_by 5 - tries

/-- `TgSendMessage`: the loop started with `tries = 0` and `backoff = 2` seconds. -/
def TgSendMessage (http : Nat → Outcome) : SendRun := sendLoop http 0 2

/-- Whether the returned value is `nil`. -/
def SendResult.isSuccess : SendResult → Bool
  | SendResult.ok => true
  | _ => false

/-! ## Door state evaluator: exactness of the rational model -/

theorem isFloat64_intCast (n : ℤ) (h : |n| < 2 ^ 53) : IsFloat64 (n : ℚ) :=
  ⟨n, 0, h, by norm_num, by norm_num, by simp⟩

/-- A binary64 value of magnitude at least `2 ^ (53 + k)` has an exponent above `k`. -/
theorem float64_exponent_gt (m e k : ℤ) (hm : |m| < 2 ^ 53)
    (hv : (2 : ℚ) ^ (53 + k) ≤ |(m : ℚ) * (2 : ℚ) ^ e|) : k < e := by
  by_contra hk
  have hk' : e ≤ k := by omega
  have hpos : (0 : ℚ) < (2 : ℚ) ^ e := zpow_pos (by norm_num) e
  have hle : (2 : ℚ) ^ e ≤ (2 : ℚ) ^ k := zpow_le_zpow_right₀ (by norm_num) hk'
  have hmq : |(m : ℚ)| < 2 ^ 53 := by exact_mod_cast hm
  have h1 : |(m : ℚ) * (2 : ℚ) ^ e| < 2 ^ 53 * (2 : ℚ) ^ e := by
    rw [abs_mul, abs_of_pos hpos]
    exact mul_lt_mul_of_pos_right hmq hpos
  have h2 : (2 : ℚ) ^ 53 * (2 : ℚ) ^ e ≤ 2 ^ 53 * (2 : ℚ) ^ k :=
    mul_le_mul_of_nonneg_left hle (by positivity)
  have h3 : (2 : ℚ) ^ (53 + k) = 2 ^ 53 * (2 : ℚ) ^ k := by
    rw [zpow_add₀ (by norm_num)]
    norm_num
  rw [h3] at hv
  linarith

/-- A binary64 value whose exponent is at least `-j` is an integer multiple of
`2 ^ (-j)`. -/
theorem float64_multiple (m e : ℤ) (j : ℕ) (he : -(j : ℤ) ≤ e) :
    ∃ M : ℤ, (m : ℚ) * (2 : ℚ) ^ e = (M : ℚ) / 2 ^ j := by
  refine ⟨m * 2 ^ (e + j).toNat, ?_⟩
  have hn : ((e + j).toNat : ℤ) = e + j := Int.toNat_of_nonneg (by omega)
  have h2 : (2 : ℚ) ^ e = (2 : ℚ) ^ (e + j).toNat / 2 ^ j := by
    rw [eq_div_iff (by positivity), ← zpow_natCast (2 : ℚ) j, ← zpow_add₀ (by norm_num),
      ← zpow_natCast (2 : ℚ) (e + j).toNat, hn]
  rw [h2]
  push_cast
  ring

/-- Adding an integer to a binary64 value of magnitude at least 128 is exact
whenever the sum has magnitude below 128. -/
theorem isFloat64_add_int (v : ℚ) (a : ℤ) (hv : IsFloat64 v) (hbig : 2 ^ 7 ≤ |v|)
    (hsmall : |v + a| < 2 ^ 7) : IsFloat64 (v + a) := by
  obtain ⟨m, e, hm, _, _, rfl⟩ := hv
  have he : (-46 : ℤ) < e := by
    apply float64_exponent_gt m e (-46) hm
    have : (2 : ℚ) ^ ((53 : ℤ) + -46) = 2 ^ 7 := by norm_num
    rw [this]
    exact hbig
  obtain ⟨M, hM⟩ := float64_multiple m e 45 (by omega)
  rw [hM] at hsmall ⊢
  have hsum : (M : ℚ) / 2 ^ 45 + a = ((M + a * 2 ^ 45 : ℤ) : ℚ) * (2 : ℚ) ^ (-45 : ℤ) := by
    push_cast
    norm_num
    ring
  refine ⟨M + a * 2 ^ 45, -45, ?_, by norm_num, by norm_num, hsum⟩
  have hq : |((M + a * 2 ^ 45 : ℤ) : ℚ)| < 2 ^ 53 := by
    have h1 : ((M + a * 2 ^ 45 : ℤ) : ℚ) = ((M : ℚ) / 2 ^ 45 + a) * 2 ^ 45 := by
      rw [add_mul, div_mul_cancel₀ _ (by positivity)]
      push_cast
      norm_num
    rw [h1, abs_mul, abs_of_pos (by positivity : (0 : ℚ) < 2 ^ 45)]
    calc |(M : ℚ) / 2 ^ 45 + a| * 2 ^ 45 < 2 ^ 7 * 2 ^ 45 :=
          mul_lt_mul_of_pos_right hsmall (by positivity)
      _ < 2 ^ 53 := by norm_num
  exact_mod_cast hq

/-- Rounding does not change the answer: for every rounding function that is
monotone and leaves binary64 values unchanged, and every reading whose monitored
axis holds a binary64 value, the binary64 evaluation of `DoorOpen` returns what
the exact evaluation returns. -/
theorem doorOpenRounded_eq_DoorOpen (rnd : ℚ → ℚ) (hmono : Monotone rnd)
    (hid : ∀ q, IsFloat64 q → rnd q = q) (data : MagnetometerData)
    (hv : IsFloat64 (data MagnetometerAxis)) :
    doorOpenRounded rnd data = DoorOpen data := by
  unfold doorOpenRounded DoorOpen doorOpenWith DoorClosedFieldStrength DoorClosedFieldRange
  simp only
  have h128 : rnd 128 = 128 := by
    have := hid ((128 : ℤ) : ℚ) (isFloat64_intCast 128 (by norm_num))
    simpa using this
  have hm128 : rnd (-128) = -128 := by
    have := hid ((-128 : ℤ) : ℚ) (isFloat64_intCast (-128) (by norm_num))
    simpa using this
  rcases lt_or_le |data MagnetometerAxis - (-270)| (2 ^ 7) with hsmall | hlarge
  · have hbig : (2 : ℚ) ^ 7 ≤ |data MagnetometerAxis| := by
      rw [abs_lt] at hsmall
      rw [le_abs]
      right
      norm_num at hsmall ⊢
      linarith [hsmall.2]
    have hx : IsFloat64 (data MagnetometerAxis - (-270)) := by
      have := isFloat64_add_int (data MagnetometerAxis) 270 hv hbig
        (by simpa [sub_neg_eq_add] using hsmall)
      simpa [sub_neg_eq_add] using this
    rw [hid _ hx]
  · have hnot : ¬ |data MagnetometerAxis - (-270)| < 70 := by
      norm_num at hlarge ⊢
      linarith
    have hnot' : ¬ |rnd (data MagnetometerAxis - (-270))| < 70 := by
      rw [le_abs] at hlarge
      rw [not_lt, le_abs]
      rcases hlarge with h | h
      · left
        have := hmono (show (128 : ℚ) ≤ data MagnetometerAxis - (-270) by
          norm_num at h ⊢; linarith)
        rw [h128] at this
        linarith
      · right
        have := hmono (show data MagnetometerAxis - (-270) ≤ (-128 : ℚ) by
          norm_num at h ⊢; linarith)
        rw [hm128] at this
        linarith
    simp only [hnot, hnot']

/-! ## Door state evaluator: properties -/

/-- C1: `DoorOpen` returns false exactly when the reading on the monitored axis is
strictly within the tolerance of the closed value, with the named constants and
with their configured values (axis 1, closed value -270, range 70); it returns
true exactly when the absolute difference is at least 70; and two readings that
agree on axis 1 get the same answer. -/
theorem DoorOpen_iff (R : MagnetometerData) :
    (DoorOpen R = false ↔
      |R MagnetometerAxis - DoorClosedFieldStrength| < DoorClosedFieldRange) ∧
    (DoorOpen R = false ↔ |R 1 - (-270)| < 70) ∧
    (DoorOpen R = true ↔ |R 1 - (-270)| ≥ 70) ∧
    (∀ R' : MagnetometerData, R' 1 = R 1 → DoorOpen R' = DoorOpen R) := by
  refine ⟨?_, ?_, ?_, ?_⟩
  · simp [DoorOpen, doorOpenWith]
  · simp [DoorOpen, doorOpenWith, MagnetometerAxis, DoorClosedFieldStrength,
      DoorClosedFieldRange]
  · simp [DoorOpen, doorOpenWith, MagnetometerAxis, DoorClosedFieldStrength,
      DoorClosedFieldRange]
  · intro R' h
    simp [DoorOpen, doorOpenWith, MagnetometerAxis, h]

/-- C2 (as stated, refuted): the readings `-200` and `-340` on axis 1 lie exactly on
the tolerance boundary, and `DoorOpen` returns true for both: the boundary is
classified open, not closed. -/
theorem boundary_reading_is_open :
    |(![0, -200, 0] : MagnetometerData) 1 - (-270)| = 70 ∧
    DoorOpen ![0, -200, 0] = true ∧
    |(![0, -340, 0] : MagnetometerData) 1 - (-270)| = 70 ∧
    DoorOpen ![0, -340, 0] = true := by
  refine ⟨?_, ?_, ?_, ?_⟩
  · norm_num
  · simp [DoorOpen, doorOpenWith, MagnetometerAxis, DoorClosedFieldStrength,
      DoorClosedFieldRange]
    norm_num
  · norm_num [abs_of_neg]
  · simp [DoorOpen, doorOpenWith, MagnetometerAxis, DoorClosedFieldStrength,
      DoorClosedFieldRange]
    norm_num [abs_of_neg]

/-- C2 (amended): a reading exactly on the tolerance boundary is classified open:
for every reading `R` with `|R[1] - (-270)| = 70`, `DoorOpen R` returns true. -/
theorem DoorOpen_on_boundary (R : MagnetometerData) (h : |R 1 - (-270)| = 70) :
    DoorOpen R = true := by
  have h' : ¬ |R 1 - (-270)| < 70 := by
    rw [h]
    exact lt_irrefl _
  simpa [DoorOpen, doorOpenWith, MagnetometerAxis, DoorClosedFieldStrength,
    DoorClosedFieldRange] using h'

/-- The amended C2 at the reading `[0, -200, 0]`. -/
theorem DoorOpen_on_boundary_witness :
    |(![0, -200, 0] : MagnetometerData) 1 - (-270)| = 70 ∧
    DoorOpen ![0, -200, 0] = true :=
  ⟨by norm_num, DoorOpen_on_boundary ![0, -200, 0] (by norm_num)⟩

/-! ## Torch eligibility: properties -/

/-- C8: torch eligibility as a function of the enabled flag, the window bounds and
the local hour: false whenever the flag is false; with the flag set and
`hourMax > hourMin`, true iff `hourMin ≤ h < hourMax`; with the flag set and
`hourMax ≤ hourMin`, true iff `h < hourMax` or `h ≥ hourMin`; with the configured
constants (enabled, 18, 6) and `h` in `0..23`, true exactly on `18..23` and
`0..5`, false exactly on `6..17`. -/
theorem UseTorch_window :
    (∀ hourMin hourMax h : Int, useTorchWith false hourMin hourMax h = false) ∧
    (∀ hourMin hourMax h : Int, hourMax > hourMin →
      (useTorchWith true hourMin hourMax h = true ↔ hourMin ≤ h ∧ h < hourMax)) ∧
    (∀ hourMin hourMax h : Int, hourMax ≤ hourMin →
      (useTorchWith true hourMin hourMax h = true ↔ h < hourMax ∨ h ≥ hourMin)) ∧
    (∀ h : Int, 0 ≤ h → h ≤ 23 →
      (UseTorch h = true ↔ (18 ≤ h ∧ h ≤ 23) ∨ (0 ≤ h ∧ h ≤ 5))) ∧
    (∀ h : Int, 0 ≤ h → h ≤ 23 → (UseTorch h = false ↔ 6 ≤ h ∧ h ≤ 17)) := by
  refine ⟨?_, ?_, ?_, ?_, ?_⟩
  · intro hourMin hourMax h
    simp [useTorchWith]
  · intro hourMin hourMax h hlt
    simp [useTorchWith, hlt]
    omega
  · intro hourMin hourMax h hle
    have : ¬ hourMin < hourMax := by omega
    simp [useTorchWith, this]
  · intro h h0 h23
    simp [UseTorch, useTorchWith, TorchFeatEnabled, TorchHourMin, TorchHourMax]
    omega
  · intro h h0 h23
    rw [← Bool.not_eq_true]
    simp [UseTorch, useTorchWith, TorchFeatEnabled, TorchHourMin, TorchHourMax]
    omega

/-! ## Tick controller: closed forms of the procedures -/

theorem DoorTick_eq (s : State) :
    DoorTick s =
      if agedLightCount s ≥ 7 then
        ({ openCount := s.openCount, lightCount := -1, hasReceivedData := true },
          [Effect.setTorch false])
      else
        ({ openCount := s.openCount, lightCount := agedLightCount s,
           hasReceivedData := true }, []) := by
  obtain ⟨oc, lc, hr⟩ := s
  by_cases h0 : 0 ≤ lc
  · by_cases h7 : 7 ≤ lc + 1 <;> cases hr <;> simp [DoorTick, agedLightCount, h0, h7]
  · have h7 : ¬ 7 ≤ lc := by omega
    cases hr <;> simp [DoorTick, agedLightCount, h0, h7]

theorem ClosedDoorTick_eq (s : State) :
    ClosedDoorTick s =
      if s.lightCount ≥ 4 then
        ({ openCount := 0, lightCount := -1, hasReceivedData := s.hasReceivedData },
          [Effect.setTorch false])
      else
        ({ openCount := 0, lightCount := s.lightCount,
           hasReceivedData := s.hasReceivedData }, []) := by
  obtain ⟨oc, lc, hr⟩ := s
  by_cases h4 : 4 ≤ lc <;> simp [ClosedDoorTick, h4]

theorem OpenDoorTick_fst (s : State) (u : Bool) :
    (OpenDoorTick s u).1 =
      { openCount := s.openCount + 1,
        lightCount := if u = true ∧ s.openCount = 0 then 0 else s.lightCount,
        hasReceivedData := s.hasReceivedData } := by
  obtain ⟨oc, lc, hr⟩ := s
  by_cases h : oc = 0 <;> cases u <;> simp [OpenDoorTick, h]

theorem OpenDoorTick_snd (s : State) (u : Bool) :
    (OpenDoorTick s u).2 =
      (if s.openCount = 0 then [Effect.sendMessage Message.doorUsed] else []) ++
      (if s.openCount = 13 then [Effect.sendMessage Message.doorBlocked] else []) ++
      (if u = true ∧ s.openCount = 0 then [Effect.setTorch true] else []) := by
  obtain ⟨oc, lc, hr⟩ := s
  by_cases h : oc = 0 <;> cases u <;> simp [OpenDoorTick, h]

theorem tick_openCount (s : State) (t : TickInput) :
    (tick s t).1.openCount = if t.doorOpen = true then s.openCount + 1 else 0 := by
  cases hd : t.doorOpen
  · simp only [tick, hd, Bool.false_eq_true, if_false, ClosedDoorTick_eq]
    split_ifs <;> rfl
  · simp only [tick, hd, if_true, OpenDoorTick_fst, DoorTick_eq]
    split_ifs <;> rfl

theorem tick_lightCount (s : State) (t : TickInput) :
    (tick s t).1.lightCount =
      if t.doorOpen = true then
        (if t.useTorch = true ∧ s.openCount = 0 then 0
         else if agedLightCount s ≥ 7 then -1 else agedLightCount s)
      else
        (if agedLightCount s ≥ 4 then -1 else agedLightCount s) := by
  cases hd : t.doorOpen
  · simp only [tick, hd, Bool.false_eq_true, if_false, ClosedDoorTick_eq, DoorTick_eq]
    by_cases h7 : agedLightCount s ≥ 7
    · have h4 : agedLightCount s ≥ 4 := by omega
      simp [h7, h4]
    · by_cases h4 : agedLightCount s ≥ 4 <;> simp [h7, h4]
  · simp only [tick, hd, if_true, OpenDoorTick_fst, DoorTick_eq]
    by_cases h7 : agedLightCount s ≥ 7 <;> simp [h7]

theorem tick_effects (s : State) (t : TickInput) :
    (tick s t).2 =
      (if agedLightCount s ≥ 7 then [Effect.setTorch false] else []) ++
      (if t.doorOpen = true then
        (if s.openCount = 0 then [Effect.sendMessage Message.doorUsed] else []) ++
        (if s.openCount = 13 then [Effect.sendMessage Message.doorBlocked] else []) ++
        (if t.useTorch = true ∧ s.openCount = 0 then [Effect.setTorch true] else [])
       else
        (if agedLightCount s ≥ 4 ∧ agedLightCount s < 7 then [Effect.setTorch false] else [])) := by
  cases hd : t.doorOpen
  · simp only [tick, hd, Bool.false_eq_true, if_false, ClosedDoorTick_eq, DoorTick_eq]
    by_cases h7 : agedLightCount s ≥ 7
    · have h4 : ¬ (agedLightCount s ≥ 4 ∧ agedLightCount s < 7) := by omega
      simp [h7]
    · by_cases h4 : agedLightCount s ≥ 4
      · have h4' : agedLightCount s ≥ 4 ∧ agedLightCount s < 7 := by omega
        simp [h7, h4, h4']
      · have h4' : ¬ (agedLightCount s ≥ 4 ∧ agedLightCount s < 7) := by omega
        simp [h7, h4]
  · simp only [tick, hd, if_true, OpenDoorTick_snd, DoorTick_eq]
    by_cases h7 : agedLightCount s ≥ 7 <;> simp [h7]

theorem stateAfter_snoc (s : State) (ticks : List TickInput) (t : TickInput) :
    stateAfter s (ticks ++ [t]) = (tick (stateAfter s ticks) t).1 := by
  simp [stateAfter]

theorem stateAfter_cons (s : State) (t : TickInput) (ticks : List TickInput) :
    stateAfter s (t :: ticks) = stateAfter (tick s t).1 ticks := by
  simp [stateAfter]

theorem stateAfter_append (s : State) (xs ys : List TickInput) :
    stateAfter s (xs ++ ys) = stateAfter (stateAfter s xs) ys := by
  simp [stateAfter]

theorem effectTrace_snoc (s : State) (ticks : List TickInput) (t : TickInput) :
    effectTrace s (ticks ++ [t]) =
      effectTrace s ticks ++ [(tick (stateAfter s ticks) t).2] := by
  induction ticks generalizing s with
  | nil => simp [effectTrace, stateAfter]
  | cons a as ih => simp [effectTrace, stateAfter_cons, ih]

theorem openRun_snoc (ticks : List TickInput) (t : TickInput) :
    openRun (ticks ++ [t]) = if t.doorOpen = true then openRun ticks + 1 else 0 := by
  cases hd : t.doorOpen <;> simp [openRun, List.takeWhile_cons, hd]

theorem openCount_eq_openRun (ticks : List TickInput) :
    (stateAfter initState ticks).openCount = openRun ticks := by
  induction ticks using List.reverseRecOn with
  | nil => simp [stateAfter, initState, openRun]
  | append_singleton xs t ih =>
    rw [stateAfter_snoc, tick_openCount, openRun_snoc, ih]

/-! ## Tick controller: which effects a tick requests -/

theorem mem_tick_doorUsed (s : State) (t : TickInput) :
    Effect.sendMessage Message.doorUsed ∈ (tick s t).2 ↔
      t.doorOpen = true ∧ s.openCount = 0 := by
  rw [tick_effects]
  cases hd : t.doorOpen <;> by_cases h0 : s.openCount = 0 <;> simp [h0]

theorem mem_tick_doorBlocked (s : State) (t : TickInput) :
    Effect.sendMessage Message.doorBlocked ∈ (tick s t).2 ↔
      t.doorOpen = true ∧ s.openCount = 13 := by
  rw [tick_effects]
  cases hd : t.doorOpen <;> by_cases h13 : s.openCount = 13 <;> simp [h13]

theorem mem_tick_lightOn (s : State) (t : TickInput) :
    Effect.setTorch true ∈ (tick s t).2 ↔
      t.doorOpen = true ∧ t.useTorch = true ∧ s.openCount = 0 := by
  rw [tick_effects]
  cases hd : t.doorOpen <;> cases hu : t.useTorch <;>
    by_cases h0 : s.openCount = 0 <;> simp [h0]

theorem mem_tick_lightOff (s : State) (t : TickInput) :
    Effect.setTorch false ∈ (tick s t).2 ↔
      agedLightCount s ≥ 7 ∨ (t.doorOpen = false ∧ agedLightCount s ≥ 4) := by
  rw [tick_effects]
  cases hd : t.doorOpen <;> by_cases h7 : agedLightCount s ≥ 7 <;>
    by_cases h4 : agedLightCount s ≥ 4 <;> simp [h7, h4]
  omega

theorem requests_doorUsed (s : State) (t : TickInput) :
    requests (Effect.sendMessage Message.doorUsed) (tick s t).2 =
      if t.doorOpen = true ∧ s.openCount = 0 then 1 else 0 := by
  rw [tick_effects]
  cases hd : t.doorOpen <;> by_cases h0 : s.openCount = 0 <;>
    by_cases h7 : agedLightCount s ≥ 7 <;>
    by_cases h4 : agedLightCount s ≥ 4 ∧ agedLightCount s < 7 <;>
    by_cases h13 : s.openCount = 13 <;> cases hu : t.useTorch <;>
    simp [requests, h0, h7, h4, h13]

theorem requests_doorBlocked (s : State) (t : TickInput) :
    requests (Effect.sendMessage Message.doorBlocked) (tick s t).2 =
      if t.doorOpen = true ∧ s.openCount = 13 then 1 else 0 := by
  rw [tick_effects]
  cases hd : t.doorOpen <;> by_cases h0 : s.openCount = 0 <;>
    by_cases h7 : agedLightCount s ≥ 7 <;>
    by_cases h4 : agedLightCount s ≥ 4 ∧ agedLightCount s < 7 <;>
    by_cases h13 : s.openCount = 13 <;> cases hu : t.useTorch <;>
    simp [requests, h0, h7, h4, h13]

theorem requests_lightOff_le (s : State) (t : TickInput) :
    requests (Effect.setTorch false) (tick s t).2 ≤ 1 := by
  rw [tick_effects]
  cases hd : t.doorOpen <;> by_cases h0 : s.openCount = 0 <;>
    by_cases h7 : agedLightCount s ≥ 7 <;>
    by_cases h4 : agedLightCount s ≥ 4 ∧ agedLightCount s < 7 <;>
    by_cases h13 : s.openCount = 13 <;> cases hu : t.useTorch <;>
    simp [requests, h0, h7, h4, h13] <;> omega

theorem no_message_on_closed_tick (s : State) (t : TickInput) (m : Message)
    (hd : t.doorOpen = false) : Effect.sendMessage m ∉ (tick s t).2 := by
  rw [tick_effects]
  by_cases h7 : agedLightCount s ≥ 7 <;>
    by_cases h4 : agedLightCount s ≥ 4 ∧ agedLightCount s < 7 <;> simp [hd, h7, h4]

theorem openRun_append_open (ticks run : List TickInput)
    (h : ∀ t ∈ run, t.doorOpen = true) :
    openRun (ticks ++ run) = openRun ticks + run.length := by
  induction run using List.reverseRecOn with
  | nil => simp
  | append_singleton xs t ih =>
    have ht : t.doorOpen = true := h t (by simp)
    have hxs : ∀ a ∈ xs, a.doorOpen = true := fun a ha => h a (by simp [ha])
    rw [← List.append_assoc, openRun_snoc, ht, ih hxs]
    simp
    omega

theorem positionsFrom_append (e : Effect) (k : Nat) (a b : List (List Effect)) :
    positionsFrom e k (a ++ b) = positionsFrom e k a ++ positionsFrom e (k + a.length) b := by
  induction a generalizing k with
  | nil => simp [positionsFrom]
  | cons x xs ih =>
    by_cases hx : e ∈ x <;> simp [positionsFrom, hx, ih] <;> congr 1 <;> omega

theorem effectTrace_length (s : State) (ticks : List TickInput) :
    (effectTrace s ticks).length = ticks.length := by
  induction ticks generalizing s with
  | nil => rfl
  | cons a as ih => simp [effectTrace, ih]

theorem openCount_after_open_run (s : State) (run : List TickInput)
    (h : ∀ t ∈ run, t.doorOpen = true) :
    (stateAfter s run).openCount = s.openCount + run.length := by
  induction run using List.reverseRecOn with
  | nil => simp [stateAfter]
  | append_singleton xs t ih =>
    have ht : t.doorOpen = true := h t (by simp)
    have hxs : ∀ a ∈ xs, a.doorOpen = true := fun a ha => h a (by simp [ha])
    rw [stateAfter_snoc, tick_openCount, ht, ih hxs]
    simp
    omega

theorem positions_in_open_run (s : State) (run : List TickInput)
    (hs : s.openCount = 0) (h : ∀ t ∈ run, t.doorOpen = true) :
    positionsOf (Effect.sendMessage Message.doorUsed) (effectTrace s run) =
        (if run = [] then [] else [1]) ∧
    positionsOf (Effect.sendMessage Message.doorBlocked) (effectTrace s run) =
        (if 14 ≤ run.length then [14] else []) := by
  induction run using List.reverseRecOn with
  | nil => simp [positionsOf, effectTrace, positionsFrom]
  | append_singleton xs t ih =>
    have ht : t.doorOpen = true := h t (by simp)
    have hxs : ∀ a ∈ xs, a.doorOpen = true := fun a ha => h a (by simp [ha])
    obtain ⟨ih1, ih2⟩ := ih hxs
    have hoc : (stateAfter s xs).openCount = xs.length := by
      rw [openCount_after_open_run s xs hxs, hs]
      simp
    unfold positionsOf at ih1 ih2 ⊢
    rw [effectTrace_snoc, positionsFrom_append, positionsFrom_append, ih1, ih2,
      effectTrace_length]
    simp only [positionsFrom, mem_tick_doorUsed, mem_tick_doorBlocked, ht, hoc, true_and]
    constructor
    · cases xs with
      | nil => simp
      | cons a as => simp
    · by_cases h13 : xs.length = 13
      · simp [h13]
      · by_cases h14 : 14 ≤ xs.length
        · have : 14 ≤ xs.length + 1 := by omega
          simp [h13, h14, this]
        · have : ¬ 14 ≤ xs.length + 1 := by omega
          simp [h13, h14, this]

/-! ## The open counter at machine width: agreement with the model -/

theorem DoorTick_openCount (s : State) : (DoorTick s).1.openCount = s.openCount := by
  rw [DoorTick_eq]
  split_ifs <;> rfl

theorem tickBits_eq_tick (w : Nat) (s : State) (t : TickInput)
    (h : s.openCount + 1 < 2 ^ w) : tickBits w s t = tick s t := by
  have hmod : ((DoorTick s).1.openCount + 1) % 2 ^ w = (DoorTick s).1.openCount + 1 := by
    rw [DoorTick_openCount]
    exact Nat.mod_eq_of_lt h
  unfold tickBits tick OpenDoorTickBits OpenDoorTick
  simp only [hmod]

theorem openRun_le_length (ticks : List TickInput) : openRun ticks ≤ ticks.length := by
  unfold openRun
  calc (ticks.reverse.takeWhile (fun t => t.doorOpen)).length
      ≤ ticks.reverse.length := (List.takeWhile_sublist _).length_le
    _ = ticks.length := List.length_reverse ticks

theorem stateAfterBits_snoc (w : Nat) (s : State) (ticks : List TickInput) (t : TickInput) :
    stateAfterBits w s (ticks ++ [t]) = (tickBits w (stateAfterBits w s ticks) t).1 := by
  simp [stateAfterBits]

theorem effectTraceBits_snoc (w : Nat) (s : State) (ticks : List TickInput) (t : TickInput) :
    effectTraceBits w s (ticks ++ [t]) =
      effectTraceBits w s ticks ++ [(tickBits w (stateAfterBits w s ticks) t).2] := by
  induction ticks generalizing s with
  | nil => simp [effectTraceBits, stateAfterBits]
  | cons a as ih => simp [effectTraceBits, stateAfterBits, ih]

/-- On a machine whose `uint` has `w` bits, every tick sequence shorter than `2 ^ w`
leaves the same state and requests the same effects as in the model that counts
in `Nat`. -/
theorem machine_width_agrees (w : Nat) (ticks : List TickInput) :
    ticks.length < 2 ^ w →
      stateAfterBits w initState ticks = stateAfter initState ticks ∧
      effectTraceBits w initState ticks = effectTrace initState ticks := by
  induction ticks using List.reverseRecOn with
  | nil =>
    intro _
    exact ⟨rfl, rfl⟩
  | append_singleton xs t ih =>
    intro hlen
    rw [List.length_append, List.length_singleton] at hlen
    obtain ⟨hs, he⟩ := ih (by omega)
    have hoc : (stateAfter initState xs).openCount + 1 < 2 ^ w := by
      have h1 := openCount_eq_openRun xs
      have h2 := openRun_le_length xs
      omega
    rw [stateAfterBits_snoc, effectTraceBits_snoc, stateAfter_snoc, effectTrace_snoc, hs, he,
      tickBits_eq_tick w _ t hoc]
    exact ⟨rfl, rfl⟩

/-! ## Open counter and notifications -/

/-- C3: from the initial state, after any sequence of ticks `openCount` equals the
number of consecutive open ticks at the end of the sequence; after `n` consecutive
open ticks (from the start, or following any sequence that does not end in an
open tick) it equals `n`; after any closed tick it equals 0. -/
theorem openCount_tracks_open_run :
    (∀ ticks : List TickInput,
      (stateAfter initState ticks).openCount = openRun ticks) ∧
    (∀ (n : Nat) (u : Bool),
      (stateAfter initState (List.replicate n (openTick u))).openCount = n) ∧
    (∀ ticks run : List TickInput, openRun ticks = 0 →
      (∀ t ∈ run, t.doorOpen = true) →
      (stateAfter initState (ticks ++ run)).openCount = run.length) ∧
    (∀ (ticks : List TickInput) (t : TickInput), t.doorOpen = false →
      (stateAfter initState (ticks ++ [t])).openCount = 0) := by
  refine ⟨openCount_eq_openRun, ?_, ?_, ?_⟩
  · intro n u
    have h : ∀ t ∈ List.replicate n (openTick u), t.doorOpen = true := by
      intro t ht
      rw [List.eq_of_mem_replicate ht]
      rfl
    rw [openCount_after_open_run initState _ h]
    simp [initState]
  · intro ticks run h0 hrun
    rw [openCount_eq_openRun, openRun_append_open ticks run hrun, h0]
    simp
  · intro ticks t ht
    rw [openCount_eq_openRun, openRun_snoc, ht]
    simp

/-- C4: notification schedule.  From the initial state, the tick that follows any
sequence of ticks requests the "door used" message once if it is the 1st tick of
its open-run and not at all otherwise, and the "door may be blocked" message once
if it is the 14th tick of its open-run and not at all otherwise; a closed tick
requests no message.  Hence over an open-run (ticks all open, started at the
beginning or after a closed tick) "door used" is requested at position 1 only and
"door may be blocked" at position 14 only, and only if the run has 14 ticks.
Fourteen consecutive open ticks request exactly two notifications, "door used"
at position 1 and "door may be blocked" at position 14. -/
theorem notification_schedule :
    (∀ (ticks : List TickInput) (t : TickInput),
      requests (Effect.sendMessage Message.doorUsed)
          (tick (stateAfter initState ticks) t).2 =
        (if openRun (ticks ++ [t]) = 1 then 1 else 0) ∧
      requests (Effect.sendMessage Message.doorBlocked)
          (tick (stateAfter initState ticks) t).2 =
        (if openRun (ticks ++ [t]) = 14 then 1 else 0)) ∧
    (∀ (ticks : List TickInput) (t : TickInput) (m : Message), t.doorOpen = false →
      Effect.sendMessage m ∉ (tick (stateAfter initState ticks) t).2) ∧
    (∀ ticks run : List TickInput, openRun ticks = 0 →
      (∀ t ∈ run, t.doorOpen = true) →
      positionsOf (Effect.sendMessage Message.doorUsed)
          (effectTrace (stateAfter initState ticks) run) =
        (if run = [] then [] else [1]) ∧
      positionsOf (Effect.sendMessage Message.doorBlocked)
          (effectTrace (stateAfter initState ticks) run) =
        (if 14 ≤ run.length then [14] else [])) ∧
    (∀ u : Bool,
      notifications (effectTrace initState (List.replicate 14 (openTick u))) =
        [(1, Message.doorUsed), (14, Message.doorBlocked)]) := by
  refine ⟨?_, ?_, ?_, ?_⟩
  · intro ticks t
    rw [requests_doorUsed, requests_doorBlocked, openRun_snoc, openCount_eq_openRun]
    cases hd : t.doorOpen <;> simp
  · intro ticks t m hd
    exact no_message_on_closed_tick _ t m hd
  · intro ticks run h0 hrun
    exact positions_in_open_run _ run (by rw [openCount_eq_openRun, h0]) hrun
  · intro u
    cases u <;> decide

/-! ## Light counter -/

theorem LightInv_init : LightInv initState := by
  simp [LightInv, initState]

theorem LightInv_tick (s : State) (t : TickInput) (h : LightInv s) :
    LightInv (tick s t).1 := by
  obtain ⟨h1, h2, h3⟩ := h
  unfold LightInv
  rw [tick_lightCount, tick_openCount]
  unfold agedLightCount
  cases hd : t.doorOpen
  · simp only [Bool.false_eq_true, if_false]
    refine ⟨?_, ?_, fun _ => ?_⟩ <;> split_ifs <;> omega
  · simp only [if_true]
    refine ⟨?_, ?_, fun h0 => ?_⟩
    · split_ifs <;> omega
    · split_ifs <;> omega
    · omega

theorem LightInv_stateAfter (ticks : List TickInput) :
    LightInv (stateAfter initState ticks) := by
  induction ticks using List.reverseRecOn with
  | nil => exact LightInv_init
  | append_singleton xs t ih =>
    rw [stateAfter_snoc]
    exact LightInv_tick _ t ih

theorem lightOff_resets (s : State) (t : TickInput) (h : LightInv s)
    (hoff : Effect.setTorch false ∈ (tick s t).2) : (tick s t).1.lightCount = -1 := by
  obtain ⟨h1, h2, h3⟩ := h
  rw [mem_tick_lightOff] at hoff
  rw [tick_lightCount]
  unfold agedLightCount at hoff ⊢
  cases hd : t.doorOpen
  · simp only [Bool.false_eq_true, if_false]
    split_ifs at hoff ⊢ <;> omega
  · simp only [hd, Bool.true_eq_false, false_and, or_false] at hoff
    simp only [if_true]
    split_ifs at hoff ⊢ <;> omega

theorem ticksSinceLightOn_snoc (tr : List (List Effect)) (es : List Effect) :
    ticksSinceLightOn (tr ++ [es]) =
      if Effect.setTorch true ∈ es then some 0
      else (ticksSinceLightOn tr).map (fun n => n + 1) := by
  unfold ticksSinceLightOn
  rw [List.reverse_append, List.reverse_singleton, List.singleton_append,
    List.findIdx?_cons, List.findIdx?_succ]
  by_cases h : Effect.setTorch true ∈ es <;> simp [h]

theorem agedLightCount_ne_zero (s : State) : agedLightCount s ≠ 0 := by
  unfold agedLightCount
  split_ifs <;> omega

theorem lightCount_zero_iff (s : State) (t : TickInput) :
    (tick s t).1.lightCount = 0 ↔ Effect.setTorch true ∈ (tick s t).2 := by
  have hc := agedLightCount_ne_zero s
  rw [mem_tick_lightOn, tick_lightCount]
  cases hd : t.doorOpen
  · simp only [Bool.false_eq_true, if_false, false_and, iff_false]
    split_ifs
    · decide
    · exact hc
  · simp only [if_true, true_and]
    by_cases hu : t.useTorch = true ∧ s.openCount = 0
    · simp [hu]
    · simp only [if_neg hu]
      constructor
      · intro h
        split_ifs at h
        exact absurd h hc
      · intro h
        exact absurd h hu

theorem lightCount_succ_of_no_lightOn (s : State) (t : TickInput)
    (hon : Effect.setTorch true ∉ (tick s t).2) (h0 : 0 ≤ (tick s t).1.lightCount) :
    0 ≤ s.lightCount ∧ (tick s t).1.lightCount = s.lightCount + 1 := by
  rw [mem_tick_lightOn] at hon
  rw [tick_lightCount] at h0 ⊢
  unfold agedLightCount at h0 ⊢
  cases hd : t.doorOpen
  · simp only [hd, Bool.false_eq_true, if_false] at h0 ⊢
    split_ifs at h0 ⊢ <;> omega
  · have hu : ¬ (t.useTorch = true ∧ s.openCount = 0) := fun h => hon ⟨hd, h⟩
    simp only [hd, if_true, if_neg hu] at h0 ⊢
    split_ifs at h0 ⊢ <;> omega

theorem ticksSinceLightOn_eq (ticks : List TickInput) :
    0 ≤ (stateAfter initState ticks).lightCount →
      ticksSinceLightOn (effectTrace initState ticks) =
        some (stateAfter initState ticks).lightCount.toNat := by
  induction ticks using List.reverseRecOn with
  | nil => simp [stateAfter, initState]
  | append_singleton xs t ih =>
    intro h0
    rw [effectTrace_snoc, ticksSinceLightOn_snoc]
    rw [stateAfter_snoc] at h0 ⊢
    by_cases hon : Effect.setTorch true ∈ (tick (stateAfter initState xs) t).2
    · rw [if_pos hon, (lightCount_zero_iff _ t).mpr hon]
      rfl
    · obtain ⟨hs, hstep⟩ := lightCount_succ_of_no_lightOn _ t hon h0
      rw [if_neg hon, ih hs, hstep]
      simp only [Option.map_some']
      congr 1
      omega

/-- C5: light-off rule.  Let `c` be the light counter after the aging step of the
tick that follows any sequence of ticks from the initial state.  That tick requests
light-off iff `c ≥ 7`, or the door is closed and `c ≥ 4`; it requests light-off at
most once; when it does, the light counter is -1 after the tick; and an open tick
with `c` in `0 .. 6` requests no light-off. -/
theorem light_off_rule :
    ∀ (ticks : List TickInput) (t : TickInput),
      (Effect.setTorch false ∈ (tick (stateAfter initState ticks) t).2 ↔
        agedLightCount (stateAfter initState ticks) ≥ 7 ∨
        (t.doorOpen = false ∧ agedLightCount (stateAfter initState ticks) ≥ 4)) ∧
      requests (Effect.setTorch false) (tick (stateAfter initState ticks) t).2 ≤ 1 ∧
      (Effect.setTorch false ∈ (tick (stateAfter initState ticks) t).2 →
        (tick (stateAfter initState ticks) t).1.lightCount = -1) ∧
      (t.doorOpen = true → 0 ≤ agedLightCount (stateAfter initState ticks) →
        agedLightCount (stateAfter initState ticks) ≤ 6 →
        Effect.setTorch false ∉ (tick (stateAfter initState ticks) t).2) := by
  intro ticks t
  refine ⟨mem_tick_lightOff _ t, requests_lightOff_le _ t,
    lightOff_resets _ t (LightInv_stateAfter ticks), ?_⟩
  intro hd _ h6
  rw [mem_tick_lightOff, hd]
  simp
  omega

/-- C6: light counter invariant.  In every state reached from the initial state by
whole ticks, `-1 ≤ lightCount ≤ 6`, and when `lightCount ≥ 0` it is the number of
ticks processed since the most recent tick that requested light-on (0 on that tick
itself).  A tick requests light-on exactly when the door is open, `openCount` has
just become 1 and torch eligibility holds, and `lightCount` is 0 after a tick
exactly when that tick requested light-on. -/
theorem lightCount_invariant :
    (∀ ticks : List TickInput,
      -1 ≤ (stateAfter initState ticks).lightCount ∧
      (stateAfter initState ticks).lightCount ≤ 6 ∧
      (0 ≤ (stateAfter initState ticks).lightCount →
        ticksSinceLightOn (effectTrace initState ticks) =
          some (stateAfter initState ticks).lightCount.toNat)) ∧
    (∀ (ticks : List TickInput) (t : TickInput),
      (Effect.setTorch true ∈ (tick (stateAfter initState ticks) t).2 ↔
        t.doorOpen = true ∧ (tick (stateAfter initState ticks) t).1.openCount = 1 ∧
          t.useTorch = true) ∧
      ((tick (stateAfter initState ticks) t).1.lightCount = 0 ↔
        Effect.setTorch true ∈ (tick (stateAfter initState ticks) t).2)) := by
  refine ⟨fun ticks => ?_, fun ticks t => ⟨?_, lightCount_zero_iff _ t⟩⟩
  · obtain ⟨h1, h2, _⟩ := LightInv_stateAfter ticks
    exact ⟨h1, h2, ticksSinceLightOn_eq ticks⟩
  · rw [mem_tick_lightOn, tick_openCount]
    cases hd : t.doorOpen <;> simp
    constructor
    · rintro ⟨hu, h0⟩
      exact ⟨h0, hu⟩
    · rintro ⟨h0, hu⟩
      exact ⟨hu, h0⟩

/-! ## Scenarios and the safety timeout -/

/-- C7 (as stated, refuted): in the scenario closed, closed, open, open, closed with
torch eligibility true throughout, no tick requests light-off; in particular the
5th tick requests nothing, and the light counter is 2 after it. -/
theorem scenario_requests_no_light_off :
    positionsOf (Effect.setTorch false) (effectTrace initState scenarioTicks) = [] ∧
    positionsOf (Effect.setTorch false) (effectTrace initState scenarioTicks) ≠ [5] ∧
    (effectTrace initState scenarioTicks).getD 4 [Effect.setTorch false] = [] ∧
    (stateAfter initState scenarioTicks).lightCount = 2 := by
  decide

/-- C7 (amended): in the scenario closed, closed, open, open, closed with torch
eligibility true throughout, the 3rd tick requests "door used" and light-on and no
other tick requests anything: one light-on request, on the 3rd tick, and no
light-off request.  The open counter runs 0, 0, 1, 2, 0 and the light counter
-1, -1, 0, 1, 2. -/
theorem scenario_trace :
    effectTrace initState scenarioTicks =
      [[], [], [Effect.sendMessage Message.doorUsed, Effect.setTorch true], [], []] ∧
    (stateTrace initState scenarioTicks).map State.openCount = [0, 0, 1, 2, 0] ∧
    (stateTrace initState scenarioTicks).map State.lightCount = [-1, -1, 0, 1, 2] ∧
    positionsOf (Effect.setTorch true) (effectTrace initState scenarioTicks) = [3] ∧
    positionsOf (Effect.setTorch false) (effectTrace initState scenarioTicks) = [] ∧
    notifications (effectTrace initState scenarioTicks) = [(3, Message.doorUsed)] := by
  decide

theorem stateTrace_snoc (s : State) (ticks : List TickInput) (t : TickInput) :
    stateTrace s (ticks ++ [t]) = stateTrace s ticks ++ [(tick (stateAfter s ticks) t).1] := by
  induction ticks generalizing s with
  | nil => simp [stateTrace, stateAfter]
  | cons a as ih => simp [stateTrace, stateAfter_cons, ih]

theorem alternatingDoor_state (n : Nat) :
    (stateAfter initState (alternatingDoor n)).openCount = n % 2 ∧
    (stateAfter initState (alternatingDoor n)).lightCount =
      (if n = 0 then -1 else if n % 2 = 1 then 0 else 1) := by
  induction n with
  | zero => simp [alternatingDoor, stateAfter, initState]
  | succ k ih =>
    obtain ⟨hoc, hlc⟩ := ih
    rw [alternatingDoor, stateAfter_snoc, tick_openCount, tick_lightCount]
    unfold agedLightCount
    rw [hoc, hlc]
    rcases Nat.mod_two_eq_zero_or_one k with hk | hk
    · have hk1 : (k + 1) % 2 = 1 := by omega
      simp [hk, hk1, openTick]
    · have hk1 : (k + 1) % 2 = 0 := by omega
      have hk0 : k ≠ 0 := by omega
      simp [hk, hk1, hk0, closedTick]

theorem alternatingDoor_no_lightOff (n : Nat) :
    Effect.setTorch false ∉
      (tick (stateAfter initState (alternatingDoor n))
        (if n % 2 = 0 then openTick true else closedTick true)).2 := by
  obtain ⟨_, hlc⟩ := alternatingDoor_state n
  rw [mem_tick_lightOff]
  unfold agedLightCount
  rw [hlc]
  rcases Nat.mod_two_eq_zero_or_one n with hn | hn
  · by_cases h0 : n = 0
    · simp [h0, openTick]
    · simp [hn, h0, openTick]
  · have h0 : n ≠ 0 := by omega
    simp [hn, h0, closedTick]

/-- C10 (violated by the code): with the door opening on every other tick and torch
eligibility true throughout, the light is never switched off.  Over nine ticks
light-on is requested on ticks 1, 3, 5, 7 and 9, light-off is never requested, and
the light counter runs 0, 1, 0, 1, 0, 1, 0, 1, 0: it restarts at every new open-run
instead of counting the nine periods the light has been on.  The same holds for
every length: no tick of the alternating sequence requests light-off, and the
light counter is non-negative after each of its ticks. -/
theorem alternating_door_keeps_light_on :
    alternatingDoor 9 = alternatingTicks ∧
    positionsOf (Effect.setTorch true) (effectTrace initState alternatingTicks) =
      [1, 3, 5, 7, 9] ∧
    positionsOf (Effect.setTorch false) (effectTrace initState alternatingTicks) = [] ∧
    (stateTrace initState alternatingTicks).map State.lightCount =
      [0, 1, 0, 1, 0, 1, 0, 1, 0] ∧
    (∀ n : Nat,
      positionsOf (Effect.setTorch false) (effectTrace initState (alternatingDoor n)) = []) ∧
    (∀ n : Nat, ∀ s ∈ stateTrace initState (alternatingDoor n), 0 ≤ s.lightCount) := by
  refine ⟨by decide, by decide, by decide, by decide, ?_, ?_⟩
  · intro n
    induction n with
    | zero => rfl
    | succ k ih =>
      unfold positionsOf at ih ⊢
      rw [alternatingDoor, effectTrace_snoc, positionsFrom_append, ih]
      simp [positionsFrom, alternatingDoor_no_lightOff k]
  · intro n
    induction n with
    | zero =>
      intro s hs
      simp [alternatingDoor, stateTrace] at hs
    | succ k ih =>
      intro s hs
      rw [alternatingDoor, stateTrace_snoc, List.mem_append, List.mem_singleton] at hs
      rcases hs with hs | hs
      · exact ih s hs
      · have h := (alternatingDoor_state (k + 1)).2
        rw [alternatingDoor, stateAfter_snoc] at h
        rw [hs, h, if_neg (Nat.succ_ne_zero k)]
        split_ifs <;> decide

theorem lightCount_succ_of_no_request (s : State) (t : TickInput) (h0 : 0 ≤ s.lightCount)
    (hon : Effect.setTorch true ∉ (tick s t).2)
    (hoff : Effect.setTorch false ∉ (tick s t).2) :
    (tick s t).1.lightCount = s.lightCount + 1 ∧ s.lightCount + 1 ≤ 6 := by
  rw [mem_tick_lightOn] at hon
  rw [mem_tick_lightOff] at hoff
  rw [tick_lightCount]
  unfold agedLightCount at hoff ⊢
  rw [if_pos h0] at hoff ⊢
  cases hd : t.doorOpen
  · simp only [hd, Bool.false_eq_true, if_false, true_and] at hoff ⊢
    split_ifs <;> omega
  · have hu : ¬ (t.useTorch = true ∧ s.openCount = 0) := fun h => hon ⟨hd, h⟩
    simp only [hd, if_true, if_neg hu]
    split_ifs <;> omega

theorem request_within_window (next : List TickInput) :
    ∀ s : State, LightInv s → 0 ≤ s.lightCount → 7 ≤ s.lightCount + next.length →
      ∃ i : Nat, s.lightCount + i < 7 ∧
        ((Effect.setTorch false ∈ (effectTrace s next).getD i [] ∧
            (stateAfter s (next.take (i + 1))).lightCount = -1) ∨
          Effect.setTorch true ∈ (effectTrace s next).getD i []) := by
  induction next with
  | nil =>
    intro s hinv _ hlen
    obtain ⟨_, h6, _⟩ := hinv
    simp at hlen
    omega
  | cons a as ih =>
    intro s hinv h0 hlen
    have h6 : s.lightCount ≤ 6 := hinv.2.1
    by_cases hon : Effect.setTorch true ∈ (tick s a).2
    · exact ⟨0, by omega, Or.inr (by simpa [effectTrace] using hon)⟩
    · by_cases hoff : Effect.setTorch false ∈ (tick s a).2
      · refine ⟨0, by omega, Or.inl ⟨by simpa [effectTrace] using hoff, ?_⟩⟩
        simpa [stateAfter] using lightOff_resets s a hinv hoff
      · obtain ⟨hstep, hle⟩ := lightCount_succ_of_no_request s a h0 hon hoff
        have hlen' : 7 ≤ (tick s a).1.lightCount + as.length := by
          rw [hstep]
          simp only [List.length_cons, Nat.cast_add, Nat.cast_one] at hlen
          omega
        obtain ⟨i, hi, hres⟩ :=
          ih (tick s a).1 (LightInv_tick s a hinv) (by rw [hstep]; omega) hlen'
        refine ⟨i + 1, by rw [hstep] at hi; omega, ?_⟩
        simpa [effectTrace, stateAfter_cons] using hres

/-- What the timeout of the code does guarantee.  From the initial state, every
tick that requests light-on and is followed by at least 7 more ticks is followed,
within those 7 ticks, by a tick that requests light-off and leaves the light
counter at -1, or by a tick that requests light-on again (which restarts the count
at 0). -/
theorem light_off_or_relight_within_seven (ticks : List TickInput) (t : TickInput)
    (next : List TickInput)
    (hon : Effect.setTorch true ∈ (tick (stateAfter initState ticks) t).2)
    (hlen : 7 ≤ next.length) :
    ∃ i : Nat, i < 7 ∧
      ((Effect.setTorch false ∈
            (effectTrace (stateAfter initState (ticks ++ [t])) next).getD i [] ∧
          (stateAfter initState (ticks ++ [t] ++ next.take (i + 1))).lightCount = -1) ∨
        Effect.setTorch true ∈
          (effectTrace (stateAfter initState (ticks ++ [t])) next).getD i []) := by
  have hz : (stateAfter initState (ticks ++ [t])).lightCount = 0 := by
    rw [stateAfter_snoc]
    exact (lightCount_zero_iff _ t).mpr hon
  obtain ⟨i, hi, hres⟩ :=
    request_within_window next (stateAfter initState (ticks ++ [t]))
      (LightInv_stateAfter _) (by rw [hz]) (by rw [hz]; omega)
  refine ⟨i, by rw [hz] at hi; omega, ?_⟩
  rw [stateAfter_append initState (ticks ++ [t]) (next.take (i + 1))]
  exact hres

/-- The guarantee above at a door that opens once and then stays closed for seven
ticks. -/
theorem light_off_or_relight_within_seven_witness :
    Effect.setTorch true ∈ (tick (stateAfter initState []) (openTick true)).2 ∧
    ∃ i : Nat, i < 7 ∧
      ((Effect.setTorch false ∈
            (effectTrace (stateAfter initState ([] ++ [openTick true]))
              (List.replicate 7 (closedTick true))).getD i [] ∧
          (stateAfter initState ([] ++ [openTick true] ++
              (List.replicate 7 (closedTick true)).take (i + 1))).lightCount = -1) ∨
        Effect.setTorch true ∈
          (effectTrace (stateAfter initState ([] ++ [openTick true]))
            (List.replicate 7 (closedTick true))).getD i []) :=
  ⟨by decide,
    light_off_or_relight_within_seven [] (openTick true)
      (List.replicate 7 (closedTick true)) (by decide) (by decide)⟩

/-! ## Notifier retry loop: properties -/

theorem sendLoop_response (http : Nat → Outcome) (tries backoff : Nat) (code : Int)
    (h : http tries = Outcome.response code) :
    sendLoop http tries backoff =
      { result := if 200 ≤ code ∧ code ≤ 299 then SendResult.ok
                  else SendResult.httpErrorResponse code,
        attempts := tries + 1, sleeps := [] } := by
  rw [sendLoop]
  simp only [h]
  by_cases hc : code < 200 ∨ code ≥ 300
  · have hc' : ¬ (200 ≤ code ∧ code ≤ 299) := by omega
    simp [hc, hc']
  · have hc' : 200 ≤ code ∧ code ≤ 299 := by omega
    simp [hc, hc']

theorem sendLoop_error_last (http : Nat → Outcome) (tries backoff : Nat)
    (h : http tries = Outcome.transportError) (h5 : 5 ≤ tries + 1) :
    sendLoop http tries backoff =
      { result := SendResult.maxTriesReached, attempts := tries + 1, sleeps := [] } := by
  rw [sendLoop]
  simp [h, h5]

theorem sendLoop_error_retry (http : Nat → Outcome) (tries backoff : Nat)
    (h : http tries = Outcome.transportError) (h5 : tries + 1 < 5) :
    sendLoop http tries backoff =
      { sendLoop http (tries + 1) (backoff * 2) with
        sleeps := backoff * 2 :: (sendLoop http (tries + 1) (backoff * 2)).sleeps } := by
  have h5' : ¬ 5 ≤ tries + 1 := by omega
  rw [sendLoop]
  simp [h, h5']

/-- What the retry loop does when entered with `tries` attempts made, `tries ≤ 4`. -/
theorem sendLoop_spec (http : Nat → Outcome) (n : Nat) :
    ∀ tries backoff : Nat, tries + n = 4 →
      tries + 1 ≤ (sendLoop http tries backoff).attempts ∧
      (sendLoop http tries backoff).attempts ≤ 5 ∧
      ((sendLoop http tries backoff).result = SendResult.maxTriesReached ↔
        ∀ i, tries ≤ i → i < 5 → http i = Outcome.transportError) ∧
      ((∀ i, tries ≤ i → i < 5 → http i = Outcome.transportError) →
        (sendLoop http tries backoff).attempts = 5) ∧
      (∀ (j : Nat) (code : Int), tries ≤ j → j < 5 →
        (∀ i, tries ≤ i → i < j → http i = Outcome.transportError) →
        http j = Outcome.response code →
        (sendLoop http tries backoff).attempts = j + 1 ∧
        (sendLoop http tries backoff).result =
          if 200 ≤ code ∧ code ≤ 299 then SendResult.ok
          else SendResult.httpErrorResponse code) := by
  induction n with
  | zero =>
    intro tries backoff ht
    have ht4 : tries = 4 := by omega
    subst ht4
    cases h : http 4 with
    | transportError =>
      rw [sendLoop_error_last http 4 backoff h (by omega)]
      refine ⟨by simp, by simp, ?_, ?_, ?_⟩
      · simp only [true_iff]
        intro i hi hi5
        have : i = 4 := by omega
        rw [this, h]
      · intro _
        rfl
      · intro j code hj hj5 _ hresp
        have hj4 : j = 4 := by omega
        simp [hj4, h] at hresp
    | response c =>
      rw [sendLoop_response http 4 backoff c h]
      refine ⟨by simp, by simp, ?_, ?_, ?_⟩
      · constructor
        · intro hres
          split_ifs at hres
        · intro hall
          have h4 := hall 4 (by omega) (by omega)
          simp [h] at h4
      · intro hall
        have h4 := hall 4 (by omega) (by omega)
        simp [h] at h4
      · intro j code hj hj5 _ hresp
        have hj4 : j = 4 := by omega
        subst hj4
        rw [h] at hresp
        cases hresp
        exact ⟨rfl, rfl⟩
  | succ m ih =>
    intro tries backoff ht
    cases h : http tries with
    | transportError =>
      rw [sendLoop_error_retry http tries backoff h (by omega)]
      obtain ⟨a1, a2, a3, a4, a5⟩ := ih (tries + 1) (backoff * 2) (by omega)
      refine ⟨by simp only; omega, a2, ?_, ?_, ?_⟩
      · simp only
        rw [a3]
        constructor
        · intro hall i hi hi5
          by_cases hit : i = tries
          · rw [hit, h]
          · exact hall i (by omega) hi5
        · intro hall i hi hi5
          exact hall i (by omega) hi5
      · intro hall
        exact a4 (fun i hi hi5 => hall i (by omega) hi5)
      · intro j code hj hj5 hbefore hresp
        have hjt : j ≠ tries := by
          intro hjt
          simp [hjt, h] at hresp
        exact a5 j code (by omega) hj5 (fun i hi hij => hbefore i (by omega) hij) hresp
    | response c =>
      rw [sendLoop_response http tries backoff c h]
      refine ⟨by simp, by simp only; omega, ?_, ?_, ?_⟩
      · constructor
        · intro hres
          split_ifs at hres
        · intro hall
          have ht := hall tries (by omega) (by omega)
          simp [h] at ht
      · intro hall
        have ht := hall tries (by omega) (by omega)
        simp [h] at ht
      · intro j code hj hj5 hbefore hresp
        by_cases hjt : j = tries
        · subst hjt
          rw [h] at hresp
          cases hresp
          exact ⟨rfl, rfl⟩
        · have ht := hbefore tries (by omega) (by omega)
          simp [h] at ht

/-- The delays slept when every attempt fails with a transport error: the backoff
is doubled before each sleep, so the four delays are 4, 8, 16 and 32 seconds. -/
theorem TgSendMessage_sleeps_of_all_errors (http : Nat → Outcome)
    (h : ∀ i, i < 5 → http i = Outcome.transportError) :
    (TgSendMessage http).sleeps = [4, 8, 16, 32] := by
  unfold TgSendMessage
  rw [sendLoop_error_retry http 0 2 (h 0 (by omega)) (by omega),
    sendLoop_error_retry http 1 4 (h 1 (by omega)) (by omega),
    sendLoop_error_retry http 2 8 (h 2 (by omega)) (by omega),
    sendLoop_error_retry http 3 16 (h 3 (by omega)) (by omega),
    sendLoop_error_last http 4 32 (h 4 (by omega)) (by omega)]

/-- C9: notifier retry contract, with the HTTP layer given as the outcome of each
attempt.  `TgSendMessage` makes at least one and at most 5 attempts; it gives up
with the max-tries failure iff the first 5 attempts are all transport errors, and
it has then made exactly 5 attempts; when attempt `j + 1` is the first to yield a
response, the call ends there, after `j + 1` attempts, with success iff the status
is in `200 .. 299` and with the HTTP-error failure otherwise. -/
theorem TgSendMessage_retry (http : Nat → Outcome) :
    1 ≤ (TgSendMessage http).attempts ∧
    (TgSendMessage http).attempts ≤ 5 ∧
    ((TgSendMessage http).result = SendResult.maxTriesReached ↔
      ∀ i, i < 5 → http i = Outcome.transportError) ∧
    ((∀ i, i < 5 → http i = Outcome.transportError) →
      (TgSendMessage http).attempts = 5 ∧
      (TgSendMessage http).result.isSuccess = false) ∧
    (∀ (j : Nat) (code : Int), j < 5 →
      (∀ i, i < j → http i = Outcome.transportError) →
      http j = Outcome.response code →
      (TgSendMessage http).attempts = j + 1 ∧
      ((TgSendMessage http).result.isSuccess = true ↔ 200 ≤ code ∧ code ≤ 299) ∧
      (¬ (200 ≤ code ∧ code ≤ 299) →
        (TgSendMessage http).result = SendResult.httpErrorResponse code)) := by
  obtain ⟨a1, a2, a3, a4, a5⟩ := sendLoop_spec http 4 0 2 (by omega)
  unfold TgSendMessage
  refine ⟨by omega, a2, ?_, ?_, ?_⟩
  · rw [a3]
    constructor
    · intro hall i hi
      exact hall i (by omega) hi
    · intro hall i _ hi
      exact hall i hi
  · intro hall
    have hall' : ∀ i, 0 ≤ i → i < 5 → http i = Outcome.transportError :=
      fun i _ hi => hall i hi
    refine ⟨a4 hall', ?_⟩
    rw [a3.mpr hall']
    rfl
  · intro j code hj hbefore hresp
    obtain ⟨b1, b2⟩ := a5 j code (by omega) hj (fun i _ hij => hbefore i hij) hresp
    refine ⟨b1, ?_, ?_⟩
    · rw [b2]
      by_cases hc : 200 ≤ code ∧ code ≤ 299
      · simp [hc, SendResult.isSuccess]
      · simp [hc, SendResult.isSuccess]
    · intro hc
      rw [b2, if_neg hc]

end DogDoor
